import Mathlib

/-!
Verification model of the self-evolving code-fixer core:
the patch safety gate (`agent/patcher.py`), the memory/reflection engine
(`agent/reflect.py`), and the iteration controller
(`agent/graph.py` + `agent/cli.py`), shallowly embedded in Lean.

Modelling conventions:
* Python values flowing through the controller state and the memory record
  are the inductive `V`; Python dicts are association lists with
  insertion-order-preserving update, matching CPython dict semantics.
* The filesystem is a finite map from absolute POSIX paths (segment lists)
  to file contents, plus the set of existing directories; the workspace is
  assumed symlink-free and its own path canonical, so `Path.resolve()` is
  lexical normalization.
* External collaborators (the regex engine, `json.loads`/`json.dumps`,
  the subprocess test runner, the planner, the file summarizer, the clock)
  are abstracted as the parameter record `Ext`; everything implemented in
  the repository itself is translated directly from the source.
* `difflib.unified_diff` line counting is modelled by a direct translation
  of `SequenceMatcher` (`find_longest_match` with its popularity/autojunk
  rule; the junk parameter is `None` as in the source, so the junk set is
  empty).
-/

namespace SelfEvolve

/-- Model of a Python value (the subset that flows through this program). -/
inductive V where
  | vNone : V
  | vBool : Bool → V
  | vInt : Int → V
  | vStr : String → V
  | vList : List V → V
  | vDict : List (String × V) → V
  deriving Repr

open V

mutual

/-- Python structural equality `==` on modelled values (numeric cross-type
quirks such as `1 == True` are outside the modelled value flow). -/
def beqV : V → V → Bool
  | vNone, vNone => true
  | vBool a, vBool b => a == b
  | vInt a, vInt b => a == b
  | vStr a, vStr b => a == b
  | vList a, vList b => beqLV a b
  | vDict a, vDict b => beqDV a b
  | _, _ => false

/-- Elementwise `==` on Python lists of modelled values. -/
def beqLV : List V → List V → Bool
  | [], [] => true
  | x :: xs, y :: ys => beqV x y && beqLV xs ys
  | _, _ => false

/-- Elementwise `==` on Python dicts of modelled values. -/
def beqDV : List (String × V) → List (String × V) → Bool
  | [], [] => true
  | (k1, x) :: xs, (k2, y) :: ys => k1 == k2 && beqV x y && beqDV xs ys
  | _, _ => false

end

/-- Python dict item assignment `d[k] = v`: updates the existing slot in
place (CPython preserves insertion order on overwrite), appends otherwise. -/
def setKV : List (String × V) → String → V → List (String × V)
  | [], k, v => [(k, v)]
  | (k0, v0) :: rest, k, v =>
    if k0 = k then (k, v) :: rest else (k0, v0) :: setKV rest k v

/-- Python `d.get(k)`; our dicts never repeat keys, first binding wins. -/
def getKV : List (String × V) → String → Option V
  | [], _ => none
  | (k0, v0) :: rest, k => if k0 = k then some v0 else getKV rest k

/-- Python `d.setdefault(k, dflt)`. -/
def setdefaultKV (d : List (String × V)) (k : String) (dflt : V) :
    List (String × V) :=
  match getKV d k with
  | some _ => d
  | none => d ++ [(k, dflt)]

/-- Python truthiness of an optional value (`None`/absent is falsy). -/
def truthy : Option V → Bool
  | none => false
  | some vNone => false
  | some (vBool b) => b
  | some (vInt n) => n != 0
  | some (vStr s) => s != ""
  | some (vList l) => !l.isEmpty
  | some (vDict d) => !d.isEmpty

/-- Python `str()` of a modelled value (container rendering is abbreviated;
the modelled flows only stringify strings). -/
def pyStrOf : V → String
  | vStr s => s
  | vInt n => toString n
  | vBool b => if b then "True" else "False"
  | vNone => "None"
  | vList _ => "[...]"
  | vDict _ => "\x7b...\x7d"

/-- Integer read from a dict with a default for a missing key, as in
`state.get(k, d)` at the call sites that immediately use the value as an
integer (a present non-integer would raise in Python and never occurs in
the modelled flows). -/
def getIntKV (s : List (String × V)) (k : String) (d : Int) : Int :=
  match getKV s k with
  | some (vInt n) => n
  | _ => d

/-- String read from a dict with `""` default, as in `state.get(k, "")`
at the call sites that use the value as text. -/
def getStrKV (s : List (String × V)) (k : String) : String :=
  match getKV s k with
  | some (vStr t) => t
  | _ => ""

/-! ## String utilities: `str.startswith`, `str.splitlines`, newline
normalization -/

/-- Python `s.startswith(p)`. -/
def strStarts (s p : String) : Bool := p.data.isPrefixOf s.data

/-- Accumulator pass of `str.splitlines(keepends=False)` over characters;
handles the line boundaries that occur in this program (`\n`, `\r\n`,
`\r`; the exotic Unicode boundaries Python also splits on never appear in
the modelled text). -/
def splitLinesGo : List Char → List Char → List String
  | [], [] => []
  | [], cur => [String.mk cur.reverse]
  | '\r' :: '\n' :: rest, cur => String.mk cur.reverse :: splitLinesGo rest []
  | '\r' :: rest, cur => String.mk cur.reverse :: splitLinesGo rest []
  | '\n' :: rest, cur => String.mk cur.reverse :: splitLinesGo rest []
  | c :: rest, cur => splitLinesGo rest (c :: cur)

/-- Python `s.splitlines()` (no kept line endings, no trailing empty). -/
def pySplitlines (s : String) : List String := splitLinesGo s.data []

/-- One pass replacing every `\r\n` and every remaining `\r` by `\n`,
equal to Python's `s.replace("\r\n", "\n").replace("\r", "\n")`. -/
def normCharsGo : List Char → List Char
  | '\r' :: '\n' :: rest => '\n' :: normCharsGo rest
  | '\r' :: rest => '\n' :: normCharsGo rest
  | c :: rest => c :: normCharsGo rest
  | [] => []

/-- Newline normalization applied to proposed file content
(`patcher.apply_edits`, line 125 of the source). -/
def normNewlines (s : String) : String := String.mk (normCharsGo s.data)

/-! ## POSIX path model: `PurePosixPath`, `Path.resolve`, path strings -/

/-- Parse result of `PurePosixPath(s)`: absolute flag plus the cleaned
segments (empty and `.` segments dropped, `..` kept, exactly as pathlib
normalizes; the POSIX double-slash-root corner is not distinguished: it
could never pass the gate's first-segment check anyway). -/
structure PP where
  isAbs : Bool
  segs : List String
  deriving Repr, DecidableEq

/-- Split a character list at `/` (the semantics of `s.split("/")`). -/
def splitSlash : List Char → List Char → List String
  | [], cur => [String.mk cur.reverse]
  | '/' :: rest, cur => String.mk cur.reverse :: splitSlash rest []
  | c :: rest, cur => splitSlash rest (c :: cur)

/-- Build the `PurePosixPath` view of a path string. -/
def posixParse (s : String) : PP :=
  { isAbs :=
      match s.data with
      | '/' :: _ => true
      | _ => false
    segs := (splitSlash s.data []).filter (fun t => t != "" && t != ".") }

/-- Python `str(PurePosixPath(...))`. -/
def posixStr (p : PP) : String :=
  if p.isAbs then "/" ++ String.intercalate "/" p.segs
  else if p.segs.isEmpty then "." else String.intercalate "/" p.segs

/-- Lexical `Path.resolve()` on an absolute path given as segments below
the filesystem root: `..` pops a segment (the root is its own parent);
valid because the modelled workspace contains no symlinks. -/
def resolveSegs (segs : List String) : List String :=
  segs.foldl (fun acc s => if s = ".." then acc.dropLast else acc ++ [s]) []

/-- Characters of `str(p)` for an absolute path with segments `segs`
(`"/" + "/".join(segs)`, as a character list for prefix reasoning). -/
def pathChars (segs : List String) : List Char :=
  segs.foldl (fun acc s => acc ++ '/' :: s.data) []

/-- Character-list `startswith`, used for the gate's `str(abs_path)
.startswith(str(workspace / "app"))` test. -/
def startsChars (s pre : List Char) : Bool := pre.isPrefixOf s

/-! ## `difflib` model: `SequenceMatcher` and the changed-line count -/

/-- Indices at which `x` occurs in `b` (ascending), i.e. `b2j[x]` before
junk/popularity filtering. -/
def positionsIn (b : List String) (x : String) : List Nat :=
  (List.range b.length).filter (fun j => b.getD j "" == x)

/-- `b2j.get(x, [])` with the autojunk rule of `SequenceMatcher.__chain_b`:
with no junk predicate (the source passes `None`), an element is dropped
when `len(b) >= 200` and it occurs more than `len(b) // 100 + 1` times. -/
def b2jGet (b : List String) (x : String) : List Nat :=
  let ps := positionsIn b x
  if 200 ≤ b.length && b.length / 100 + 1 < ps.length then [] else ps

/-- Inner loop of `find_longest_match` over the occurrence list of `a[i]`:
threads `newj2len` (as an association list) and the current best
`(besti, bestj, bestsize)`; `k > bestsize` keeps the earliest maximum,
as in the source. -/
def flmInner (j2len : List (Nat × Nat)) (i : Nat) :
    List Nat → List (Nat × Nat) → Nat × Nat × Nat →
    List (Nat × Nat) × (Nat × Nat × Nat)
  | [], nj, best => (nj, best)
  | j :: js, nj, best =>
    let prev := if j = 0 then 0 else ((j2len.lookup (j - 1)).getD 0)
    let k := prev + 1
    let best' := if best.2.2 < k then (i + 1 - k, j + 1 - k, k) else best
    flmInner j2len i js ((j, k) :: nj) best'

/-- Outer loop of `find_longest_match` over `i ∈ [alo, ahi)`; per `i`,
`j` runs over `b2j[a[i]]` skipping `j < blo` and breaking at `j ≥ bhi`
(the occurrence lists are ascending). -/
def flmOuter (a b : List String) (blo bhi : Nat) :
    List Nat → List (Nat × Nat) → Nat × Nat × Nat → Nat × Nat × Nat
  | [], _, best => best
  | i :: is, j2len, best =>
    let js := ((b2jGet b (a.getD i "")).filter (fun j => blo ≤ j)).takeWhile
      (fun j => j < bhi)
    let r := flmInner j2len i js [] best
    flmOuter a b blo bhi is r.1 r.2

/-- Backward extension of the best block by equal elements (the junk set is
empty, so the non-junk and junk extension loops collapse to this one);
fuelled by `besti`, which strictly decreases each step. -/
def extendBack (a b : List String) (alo blo : Nat) :
    Nat → Nat × Nat × Nat → Nat × Nat × Nat
  | 0, r => r
  | fuel + 1, (bi, bj, sz) =>
    if alo < bi && blo < bj && (a.getD (bi - 1) "" == b.getD (bj - 1) "") then
      extendBack a b alo blo fuel (bi - 1, bj - 1, sz + 1)
    else (bi, bj, sz)

/-- Forward extension of the best block by equal elements; fuelled by
`ahi`, a bound on the number of steps. -/
def extendFwd (a b : List String) (ahi bhi : Nat) :
    Nat → Nat × Nat × Nat → Nat × Nat × Nat
  | 0, r => r
  | fuel + 1, (bi, bj, sz) =>
    if bi + sz < ahi && bj + sz < bhi &&
        (a.getD (bi + sz) "" == b.getD (bj + sz) "") then
      extendFwd a b ahi bhi fuel (bi, bj, sz + 1)
    else (bi, bj, sz)

/-- `SequenceMatcher(None, a, b).find_longest_match(alo, ahi, blo, bhi)`. -/
def find_longest_match (a b : List String) (alo ahi blo bhi : Nat) :
    Nat × Nat × Nat :=
  let best := flmOuter a b blo bhi ((List.range ahi).drop alo) [] (alo, blo, 0)
  let best := extendBack a b alo blo best.1 best
  extendFwd a b ahi bhi ahi best

/-- Lines of `a[alo:ahi]` and `b[blo:bhi]` outside every matching block of
the recursive `get_matching_blocks` decomposition: exactly the lines that
`unified_diff` emits with a `-` respectively `+` marker. Fuelled; the
span shrinks at every recursive call, so the top-level fuel in
`count_changed_lines` always suffices. -/
def unmatchedGo (a b : List String) :
    Nat → Nat → Nat → Nat → Nat → List String × List String
  | 0, _, _, _, _ => ([], [])
  | fuel + 1, alo, ahi, blo, bhi =>
    let m := find_longest_match a b alo ahi blo bhi
    if m.2.2 = 0 then
      ((a.drop alo).take (ahi - alo), (b.drop blo).take (bhi - blo))
    else
      let l := unmatchedGo a b fuel alo m.1 blo m.2.1
      let r := unmatchedGo a b fuel (m.1 + m.2.2) ahi (m.2.1 + m.2.2) bhi
      (l.1 ++ r.1, l.2 ++ r.2)

/-- The deleted and inserted line lists of
`unified_diff(a, b, lineterm="")`. -/
def diffRemovedAdded (a b : List String) : List String × List String :=
  unmatchedGo a b (a.length + b.length + 1) 0 a.length 0 b.length

/-- `patcher._count_changed_lines`: counts the diff lines that start with
`+`/`-` but not `+++`/`---`. A diff line is the marker plus the content
line, so a removed content line itself starting with `--` (and an added
one starting with `++`) is skipped along with the file headers. -/
def count_changed_lines (old_text new_text : String) : Nat :=
  let a := pySplitlines old_text
  let b := pySplitlines new_text
  let r := diffRemovedAdded a b
  (r.1.filter (fun l => !(strStarts l "--"))).length +
    (r.2.filter (fun l => !(strStarts l "++"))).length

/-- Changed-line count as the specification words it: the number of added
plus removed lines in the line-based unified diff, with no exclusions. -/
def spec_changed_lines (old_text new_text : String) : Nat :=
  let r := diffRemovedAdded (pySplitlines old_text) (pySplitlines new_text)
  r.1.length + r.2.length

/-! ## Filesystem model -/

/-- The filesystem: file contents keyed by absolute path (segment list
below the root) plus the set of existing directories. -/
structure FS where
  files : List (List String × String)
  dirs : List (List String)
  deriving Repr, DecidableEq

/-- Content of the file at a path, if it exists. -/
def lookupFile : List (List String × String) → List String → Option String
  | [], _ => none
  | (p, c) :: rest, q => if p = q then some c else lookupFile rest q

/-- Overwrite-or-create a file (`Path.write_text`). -/
def writeFileKV : List (List String × String) → List String → String →
    List (List String × String)
  | [], p, c => [(p, c)]
  | (p0, c0) :: rest, p, c =>
    if p0 = p then (p, c) :: rest else (p0, c0) :: writeFileKV rest p c

/-- `Path.write_text` on the filesystem. -/
def FS.writeFile (fs : FS) (p : List String) (c : String) : FS :=
  { fs with files := writeFileKV fs.files p c }

/-- Record a directory as existing (idempotent, `exist_ok=True`). -/
def addDirIfMissing (ds : List (List String)) (d : List String) :
    List (List String) :=
  if d ∈ ds then ds else ds ++ [d]

/-- The directories `dir.mkdir(parents=True, exist_ok=True)` brings into
existence: every non-empty initial segment of `dir`. -/
def mkdirSet (dir : List String) : List (List String) :=
  (List.range dir.length).map (fun i => dir.take (i + 1))

/-- `dir.mkdir(parents=True, exist_ok=True)`: every ancestor of `dir`
down from the root is created if missing. -/
def mkdirParents (fs : FS) (dir : List String) : FS :=
  { fs with dirs := (mkdirSet dir).foldl addDirIfMissing fs.dirs }

/-! ## `agent/patcher.py` -/

/-- `patcher._is_safe_path`: the first `PurePosixPath` part must equal the
whitelist root `app`, and the string of the resolved absolute target must
start with the string of `workspace / "app"` (the source compares path
strings, not path components). -/
def is_safe_path (ws : List String) (rel_path : String) : Bool :=
  if (posixParse rel_path).isAbs then false
  else
    match (posixParse rel_path).segs with
    | [] => false
    | s0 :: _ =>
      s0 == "app" &&
        startsChars (pathChars (resolveSegs (ws ++ (posixParse rel_path).segs)))
          (pathChars (ws ++ ["app"]))

/-- `patcher._validate_schema`: `none` means valid, `some msg` carries the
message of the raised `ValueError`. -/
def validate_schema (p : V) : Option String :=
  match p with
  | V.vDict d =>
    match getKV d "path", getKV d "new_text" with
    | none, _ => some "patch requires 'path' and 'new_text'"
    | _, none => some "patch requires 'path' and 'new_text'"
    | some pv, some nv =>
      match pv with
      | V.vStr _ =>
        match nv with
        | V.vStr _ => none
        | _ => some "'new_text' must be a string"
      | _ => some "'path' must be a string"
  | _ => some "patch must be a dict"

/-- Message of the budget `ValueError` of `apply_edits`. -/
def budgetMsg (total limit : Nat) : String :=
  "Change budget exceeded: " ++ toString total ++ " lines > limit " ++
    toString limit

/-- Message of the too-many-files `ValueError` of `apply_edits`. -/
def tooManyMsg (n m : Nat) : String :=
  "Too many files to modify (" ++ toString n ++ " > " ++ toString m ++ ")."

/-- The `"path"` field of a schema-valid patch. -/
def pathField (p : V) : String :=
  match p with
  | V.vDict d =>
    match getKV d "path" with
    | some (V.vStr s) => s
    | _ => ""
  | _ => ""

/-- The `"new_text"` field of a schema-valid patch. -/
def newTextField (p : V) : String :=
  match p with
  | V.vDict d =>
    match getKV d "new_text" with
    | some (V.vStr s) => s
    | _ => ""
  | _ => ""

/-- `str(PurePosixPath(p["path"]))` as computed by `apply_edits`. -/
def relPathOf (p : V) : String := posixStr (posixParse (pathField p))

/-- Resolved absolute write target of a patch:
`(workspace / rel_path)` normalized (the write, the existence test and the
parent `mkdir` all act on this location on a symlink-free filesystem). -/
def targetOf (ws : List String) (p : V) : List String :=
  resolveSegs (ws ++ (posixParse (relPathOf p)).segs)

/-- On-disk content the patch is diffed against: the existing file content
or `""` when the file does not exist. -/
def oldTextOf (files : List (List String × String)) (ws : List String)
    (p : V) : String :=
  (lookupFile files (targetOf ws p)).getD ""

/-- Changed-line count of one patch against the given (pre-batch) file
table, as `apply_edits` computes it. -/
def changedOf (files : List (List String × String)) (ws : List String)
    (p : V) : Nat :=
  count_changed_lines (oldTextOf files ws p) (normNewlines (newTextField p))

/-- Validation pass of `apply_edits` (source lines 109–134): per patch in
order, check the schema, check the path, make the parent directories,
read the current content, normalize the new content, add the diff size to
the running total and fail as soon as it exceeds the limit; accumulate the
write list for the commit phase. Returns the error (if any), the mutated
directory set, and the pending writes. -/
def validateGo (ws : List String) (files0 : List (List String × String))
    (maxTotal : Nat) :
    List V → Nat → List (List String) → List (List String × String) →
    Option String × List (List String) × List (List String × String)
  | [], _, dirs, acc => (none, dirs, acc)
  | p :: rest, total, dirs, acc =>
    match validate_schema p with
    | some msg => (some ("Invalid patch schema: " ++ msg), dirs, acc)
    | none =>
      if is_safe_path ws (relPathOf p) then
        if maxTotal < total + changedOf files0 ws p then
          (some (budgetMsg (total + changedOf files0 ws p) maxTotal),
            (mkdirParents ⟨files0, dirs⟩ ((targetOf ws p).dropLast)).dirs, acc)
        else
          validateGo ws files0 maxTotal rest (total + changedOf files0 ws p)
            (mkdirParents ⟨files0, dirs⟩ ((targetOf ws p).dropLast)).dirs
            (acc ++ [(targetOf ws p, normNewlines (newTextField p))])
      else
        (some ("Unsafe path (allowed only under 'app/'): " ++ relPathOf p),
          dirs, acc)

/-- Commit phase of `apply_edits`: write every pending file in order. -/
def commitWrites (files : List (List String × String)) :
    List (List String × String) → List (List String × String)
  | [] => files
  | (p, c) :: rest => commitWrites (writeFileKV files p c) rest

/-- `patcher.apply_edits(workspace, patches, max_files, max_total_lines)`:
returns the message of the raised `ValueError` (if any) together with the
resulting filesystem — on an error the directories made so far remain,
but no file is written. -/
def apply_edits (ws : List String) (fs : FS) (patches : List V)
    (maxFiles maxTotal : Nat) : Option String × FS :=
  if patches.isEmpty then (none, fs)
  else if maxFiles < patches.length then
    (some (tooManyMsg patches.length maxFiles), fs)
  else
    match validateGo ws fs.files maxTotal patches 0 fs.dirs [] with
    | (some e, dirs', _) => (some e, ⟨fs.files, dirs'⟩)
    | (none, dirs', towrite) => (none, ⟨commitWrites fs.files towrite, dirs'⟩)

/-- The transparency-artifact path `.selfevolve/edits.json` under the
workspace. -/
def artifactPath (ws : List String) : List String :=
  ws ++ [".selfevolve", "edits.json"]

/-- The payload `write_edits_json` serializes: per patch, the forward-slash
normalized `path` (a non-string path is coerced with `str()` first) and
the raw `newText`. -/
def editsPayload (patches : List V) : V :=
  V.vList (patches.map (fun p =>
    V.vDict [("path",
        V.vStr (posixStr (posixParse (pyStrOf
          (match p with
           | V.vDict d => (getKV d "path").getD (V.vStr "")
           | _ => V.vStr ""))))),
      ("newText",
        match p with
        | V.vDict d => (getKV d "new_text").getD (V.vStr "")
        | _ => V.vStr "")]))

/-- `patcher.write_edits_json`: make `.selfevolve`, serialize the batch,
overwrite `edits.json`. A non-dict patch makes `p.get` raise before
anything is written (the payload is built before the single write). -/
def write_edits_json (ws : List String) (fs : FS) (dumps : V → String)
    (patches : List V) : Except String FS :=
  if patches.any (fun p => match p with | V.vDict _ => false | _ => true) then
    .error "AttributeError: get"
  else
    let fs1 := mkdirParents fs (ws ++ [".selfevolve"])
    .ok (fs1.writeFile (artifactPath ws) (dumps (editsPayload patches)))

/-! ## `agent/reflect.py` -/

/-- `load_memory(mem_path)`: the whole exists/read/parse sequence is inside
a `try`, so a missing file, an empty file (`raw or "{}"` parses `"{}"`)
and unparsable content all yield `{}`; but the two `setdefault` calls are
outside the `try`, so a parse result that is not a dict raises. `loads`
abstracts `json.loads`. -/
def load_memory (loads : String → Except Unit V) (file : Option String) :
    Except String V :=
  let mem : V :=
    match file with
    | none => V.vDict []
    | some raw =>
      match loads (if raw = "" then "\x7b\x7d" else raw) with
      | .ok v => v
      | .error _ => V.vDict []
  match mem with
  | V.vDict d =>
    .ok (V.vDict (setdefaultKV (setdefaultKV d "heuristics" (V.vList []))
      "fix_snippets" (V.vList [])))
  | _ => .error "AttributeError: setdefault"

/-- `save_memory(mem_path, memory)`: make the parent directories, stamp
`_updated_at`, serialize and overwrite; returns the filesystem and the
(mutated, aliased) memory dict. `reflect_update` always hands a dict in. -/
def save_memory (path : List String) (dumps : V → String) (time : Int)
    (fs : FS) (memory : V) : FS × V :=
  let fs1 := mkdirParents fs path.dropLast
  let mem2 :=
    match memory with
    | V.vDict d => V.vDict (setKV d "_updated_at" (V.vInt time))
    | m => m
  (fs1.writeFile path (dumps mem2), mem2)

/-- One entry of the fixed mining table `reflect._PATTERNS`. -/
structure Pat where
  tag : String
  regex : String
  advice : String
  deriving Repr, DecidableEq

/-- The fixed, ordered failure-signature table (exact source strings). -/
def PATTERNS : List Pat :=
  [⟨"off_by_one", "AssertionError.*==",
    "Check +/- 1 around arithmetic or index bounds. Verify len/slicing."⟩,
   ⟨"none_guard", "TypeError: .*NoneType",
    "Guard None inputs or provide defaults before arithmetic/attribute access."⟩,
   ⟨"index_bounds", "IndexError: list index out of range",
    "Verify bounds; prefer enumerate or range(len(...))-1 checks."⟩,
   ⟨"key_missing", "KeyError: .+",
    "Use dict.get with default or check key existence before access."⟩,
   ⟨"import_missing",
    "(ModuleNotFoundError|ImportError):\\s*No module named\\s+'?([\\w\\.]+)'?",
    "Confirm package/install or relative import path; avoid shadowing stdlib names."⟩,
   ⟨"type_mismatch",
    "TypeError: .* (unsupported operand type|expected .* got .*)",
    "Add type guards/casts; keep operations between compatible types."⟩]

/-- `item.get(k, "")` inside `_dedupe`; rule entries are dicts in every
modelled flow (Python would raise `AttributeError` on a non-dict entry). -/
def pyGetKey (item : V) (k : String) : V :=
  match item with
  | V.vDict d => (getKV d k).getD (V.vStr "")
  | _ => V.vStr ""

/-- The dedup key of `_dedupe`: the tuple of the values under the keys
`("tag", "regex", "advice")` — the literal key names of the source; mined
rules store their pattern under `"pattern"`, so the middle component reads
the default `""` for them. -/
def keyOf (item : V) : V × V × V :=
  (pyGetKey item "tag", pyGetKey item "regex", pyGetKey item "advice")

/-- Membership of a key tuple in the `seen` set (Python tuple `==`). -/
def keyMem (ks : List (V × V × V)) (k : V × V × V) : Bool :=
  ks.any (fun k0 => beqV k0.1 k.1 && beqV k0.2.1 k.2.1 && beqV k0.2.2 k.2.2)

/-- Loop of `_dedupe`: admit the first item per unseen key; break as soon
as the output holds `maxItems` entries. -/
def dedupeGo (maxItems : Nat) :
    List V → List (V × V × V) → List V → List V
  | [], _, out => out
  | item :: rest, seen, out =>
    let k := keyOf item
    let seen' := if keyMem seen k then seen else k :: seen
    let out' := if keyMem seen k then out else out ++ [item]
    if maxItems ≤ out'.length then out'
    else dedupeGo maxItems rest seen' out'

/-- `reflect._dedupe` with its default key and cap. -/
def dedupe (seq : List V) : List V := dedupeGo 64 seq [] []

/-- The extra symbol-specific rule mined from a `NameError` match;
`re.escape` is the identity on the `[\w_]+` strings the capture group can
produce. -/
def nameErrorRule (sym : String) : V :=
  V.vDict [("tag", V.vStr "name_error"),
    ("pattern", V.vStr ("NameError:.*\\b" ++ sym ++ "\\b")),
    ("advice",
      V.vStr ("Define or import '" ++ sym ++ "' before use; check scope."))]

/-- `reflect.reflect_update(memory, test_log)`. `search pat.regex log`
abstracts `re.search(pat, log, IGNORECASE | DOTALL)`; `nameCap log`
abstracts the `NameError: name '...' is not defined` capture. The
heuristics value is coerced with `list(...)`, which the modelled flows
only meet on lists. -/
def reflect_update (search : String → String → Bool)
    (nameCap : String → Option String) (memory : V) (test_log : String) :
    V :=
  let memory :=
    match memory with
    | V.vDict d => V.vDict d
    | _ => V.vDict [("heuristics", V.vList []), ("fix_snippets", V.vList [])]
  let memory :=
    match memory with
    | V.vDict d =>
      V.vDict (setdefaultKV (setdefaultKV d "heuristics" (V.vList []))
        "fix_snippets" (V.vList []))
    | m => m
  let log := test_log
  let new_rules := PATTERNS.filterMap (fun pat =>
    if search pat.regex log then
      some (V.vDict [("tag", V.vStr pat.tag), ("pattern", V.vStr pat.regex),
        ("advice", V.vStr pat.advice)])
    else none)
  let new_rules :=
    match nameCap log with
    | some sym => new_rules ++ [nameErrorRule sym]
    | none => new_rules
  match memory with
  | V.vDict d =>
    let heur :=
      match getKV d "heuristics" with
      | some (V.vList l) => l
      | _ => []
    V.vDict (setKV d "heuristics" (V.vList (dedupe (heur ++ new_rules))))
  | m => m

/-! ## `agent/graph.py` + `agent/cli.py`: the iteration controller -/

/-- The external environment of one run: everything outside the repository
(JSON codec, summarizer, planner, test subprocess, regex engine, clock). -/
structure Ext where
  loads : String → Except Unit V
  dumps : V → String
  summarize : FS → V
  planner : V → String → V → List V
  runner : FS → Bool × String
  search : String → String → Bool
  nameCap : String → Option String
  time : Int

/-- The controller state `S`: the dict LangGraph threads between nodes. -/
def PyState := List (String × V)

/-- The persistent memory file location `workspace/agent/memory.json`. -/
def memory_path (ws : List String) : List String := ws ++ ["agent", "memory.json"]

/-- `cli.read_context`: load the memory record, summarize context files;
a `load_memory` raise aborts the run. -/
def read_context (ws : List String) (ext : Ext) (s : PyState) (fs : FS) :
    Except String (PyState × FS) :=
  match load_memory ext.loads (lookupFile fs.files (memory_path ws)) with
  | .error e => .error e
  | .ok mem =>
    .ok (setKV (setKV s "memory" mem) "file_summaries" (ext.summarize fs), fs)

/-- `cli.node_plan_fix`: ask the planner and store its proposals. -/
def node_plan_fix (ext : Ext) (s : PyState) (fs : FS) : PyState × FS :=
  let patches := ext.planner ((getKV s "memory").getD (V.vDict []))
    (getStrKV s "test_log") ((getKV s "file_summaries").getD (V.vDict []))
  (setKV s "patches" (V.vList patches), fs)

/-- `cli.node_apply_patch`: with a non-empty batch, write the transparency
artifact then apply with the default limits; any exception is caught into
`error_flag`/`message`. With an empty batch neither call happens. -/
def node_apply_patch (ws : List String) (ext : Ext) (s : PyState) (fs : FS) :
    PyState × FS :=
  let patches :=
    match getKV s "patches" with
    | some (V.vList l) => l
    | _ => []
  if patches.isEmpty then (setKV s "error_flag" (V.vBool false), fs)
  else
    match write_edits_json ws fs ext.dumps patches with
    | .error e =>
      (setKV (setKV s "error_flag" (V.vBool true)) "message"
        (V.vStr ("apply_patch error: " ++ e)), fs)
    | .ok fs1 =>
      match apply_edits ws fs1 patches 3 300 with
      | (none, fs2) => (setKV s "error_flag" (V.vBool false), fs2)
      | (some e, fs2) =>
        (setKV (setKV s "error_flag" (V.vBool true)) "message"
          (V.vStr ("apply_patch error: " ++ e)), fs2)

/-- `cli.node_run_tests`: run the external suite and record the outcome
under the keys `"tests_passed"` and `"test_log"`. -/
def node_run_tests (ext : Ext) (s : PyState) (fs : FS) : PyState × FS :=
  let r := ext.runner fs
  (setKV (setKV s "tests_passed" (V.vBool r.1)) "test_log" (V.vStr r.2), fs)

/-- `cli.node_reflect`: mine the log into memory, persist it, and bump
`"iter"` by one. -/
def node_reflect (ws : List String) (ext : Ext) (s : PyState) (fs : FS) :
    PyState × FS :=
  let mem := reflect_update ext.search ext.nameCap
    ((getKV s "memory").getD (V.vDict [])) (getStrKV s "test_log")
  let r := save_memory (memory_path ws) ext.dumps ext.time fs mem
  (setKV (setKV s "memory" r.2) "iter"
    (V.vInt (getIntKV s "iter" 0 + 1)), r.1)

/-- Successor of a conditional edge. -/
inductive Target where
  | tEnd : Target
  | tRunTests : Target
  | tReflect : Target
  deriving Repr, DecidableEq

/-- `graph._route_after_apply`. -/
def route_after_apply (s : PyState) : Target :=
  if truthy (getKV s "error_flag") then .tEnd else .tRunTests

/-- `graph._route_after_tests` — note the literal key `"test_passed"` of
the source (`node_run_tests` stores under `"tests_passed"`), and the
defaults `state.get("iter", 0)` / `state.get("max_iters", 3)`. -/
def route_after_tests (s : PyState) : Target :=
  if truthy (getKV s "error_flag") then .tEnd
  else if truthy (getKV s "test_passed") then .tEnd
  else if getIntKV s "max_iters" 3 ≤ getIntKV s "iter" 0 + 1 then .tEnd
  else .tReflect

/-- The nodes of the compiled graph. -/
inductive Node where
  | ReadContext : Node
  | PlanFix : Node
  | ApplyPatch : Node
  | RunTests : Node
  | Reflect : Node
  deriving Repr, DecidableEq

/-- Execution of the compiled graph from a node: the topology of
`graph.build_graph` (entry `ReadContext`, unconditional edges
`ReadContext → PlanFix → ApplyPatch`, conditional edges after
`ApplyPatch` and `RunTests`, back edge `Reflect → PlanFix`). Fuelled,
standing in for LangGraph's own recursion limit. -/
def runGraph (ws : List String) (ext : Ext) :
    Nat → Node → PyState → FS → Except String (PyState × FS)
  | 0, _, _, _ => .error "recursion limit"
  | fuel + 1, n, s, fs =>
    match n with
    | .ReadContext =>
      match read_context ws ext s fs with
      | .error e => .error e
      | .ok (s1, fs1) => runGraph ws ext fuel .PlanFix s1 fs1
    | .PlanFix =>
      let r := node_plan_fix ext s fs
      runGraph ws ext fuel .ApplyPatch r.1 r.2
    | .ApplyPatch =>
      let r := node_apply_patch ws ext s fs
      match route_after_apply r.1 with
      | .tEnd => .ok (r.1, r.2)
      | _ => runGraph ws ext fuel .RunTests r.1 r.2
    | .RunTests =>
      let r := node_run_tests ext s fs
      match route_after_tests r.1 with
      | .tEnd => .ok (r.1, r.2)
      | _ => runGraph ws ext fuel .Reflect r.1 r.2
    | .Reflect =>
      let r := node_reflect ws ext s fs
      runGraph ws ext fuel .PlanFix r.1 r.2

/-- The initial controller state built by `cli.main` for a workspace and
an attempt budget. -/
def initState (repo : String) (maxIters : Int) : PyState :=
  [("repo", V.vStr repo), ("iter", V.vInt 0), ("max_iters", V.vInt maxIters)]

/-! ## Specification-side comparison definitions -/

/-- The path-confinement condition as the specification words it: the path
is relative and resolves, after normalization, to a location inside the
workspace's `app` subdirectory (segment-wise containment, not string
matching). -/
def spec_resolves_inside_app (ws : List String) (rel : String) : Bool :=
  let pp := posixParse rel
  !pp.isAbs && List.isPrefixOf (ws ++ ["app"]) (resolveSegs (ws ++ pp.segs))

/-! ## Concrete scenario inputs -/

/-- A schema-valid patch dict. -/
def mkP (p t : String) : V := V.vDict [("path", V.vStr p), ("new_text", V.vStr t)]

/-- 200 pairwise distinct lines. -/
def L200 : String :=
  String.intercalate "\n" ((List.range 200).map (fun i => "l" ++ toString i))

/-- 301 lines, each beginning with `++`. -/
def LPP301 : String := String.intercalate "\n" (List.replicate 301 "++x")

/-- Workspace segments used by the concrete runs. -/
def ws0 : List String := ["ws"]

/-- An empty workspace that already contains its `app` directory. -/
def fs0 : FS := ⟨[], [["ws"], ["ws", "app"]]⟩

/-- A concrete `json.loads` behaviour covering the inputs of the
`load_memory` scenarios (empty object, array, object with a heuristics
list, everything else unparsable). -/
def cLoads : String → Except Unit V := fun s =>
  if s = "\x7b\x7d" then .ok (V.vDict [])
  else if s = "[]" then .ok (V.vList [])
  else if s = "\x7b\"heuristics\": [1]\x7d" then
    .ok (V.vDict [("heuristics", V.vList [V.vInt 1])])
  else .error ()

/-- External environment of the concrete runs: the planner proposes
nothing, the suite passes, mining never fires. -/
def extPass : Ext :=
  { loads := fun _ => .error ()
    dumps := fun _ => "M"
    summarize := fun _ => V.vDict []
    planner := fun _ _ _ => []
    runner := fun _ => (true, "1 passed")
    search := fun _ _ => false
    nameCap := fun _ => none
    time := 0 }

/-- Same environment with an always-failing suite. -/
def extFail : Ext := { extPass with runner := fun _ => (false, "1 failed") }

/-- The bare workspace of the concrete runs. -/
def fsE : FS := ⟨[], [["ws"]]⟩

/-- A heuristic rule with pattern `p1`. -/
def ruleP1 : V :=
  V.vDict [("tag", V.vStr "t"), ("pattern", V.vStr "p1"), ("advice", V.vStr "a")]

/-- The same tag and advice with pattern `p2`. -/
def ruleP2 : V :=
  V.vDict [("tag", V.vStr "t"), ("pattern", V.vStr "p2"), ("advice", V.vStr "a")]

/-- The controller state at the top of a loop iteration (all nine keys in
creation order). -/
def loopSt (rep iter mem fsum patches eflag tpass tlog : V) : PyState :=
  [("repo", rep), ("iter", iter), ("max_iters", V.vInt 3),
   ("memory", mem), ("file_summaries", fsum), ("patches", patches),
   ("error_flag", eflag), ("tests_passed", tpass), ("test_log", tlog)]

/-- The memory dict after one Reflect step (mined, stamped, persisted). -/
def memAfter (ws : List String) (ext : Ext) (fs : FS) (mem : V)
    (log : String) : V :=
  (save_memory (memory_path ws) ext.dumps ext.time fs
    (reflect_update ext.search ext.nameCap mem log)).2

/-- The filesystem after one Reflect step persisted the memory. -/
def fsAfter (ws : List String) (ext : Ext) (fs : FS) (mem : V)
    (log : String) : FS :=
  (save_memory (memory_path ws) ext.dumps ext.time fs
    (reflect_update ext.search ext.nameCap mem log)).1

/-- A proposal that fails the gate's validation on its own: bad schema or
unsafe path. -/
def invalidP (ws : List String) (p : V) : Prop :=
  validate_schema p ≠ none ∨ is_safe_path ws (relPathOf p) = false

/-- Running changed-line total of the first `n` proposals of a batch,
each diffed against the pre-batch file table. -/
def prefTotal (files : List (List String × String)) (ws : List String)
    (ps : List V) (n : Nat) : Nat :=
  ((ps.take n).map (changedOf files ws)).sum

end SelfEvolve

namespace SelfEvolve

/-! ## Supporting lemmas -/

theorem getKV_setKV_self (s : List (String × V)) (k : String) (v : V) :
    getKV (setKV s k v) k = some v := by
  induction s with
  | nil => simp [setKV, getKV]
  | cons kv rest ih =>
    obtain ⟨k0, v0⟩ := kv
    by_cases h : k0 = k
    · simp [setKV, getKV, h]
    · simp [setKV, getKV, h, ih]

theorem getKV_setKV_ne (s : List (String × V)) (k k' : String) (v : V)
    (h : k ≠ k') : getKV (setKV s k v) k' = getKV s k' := by
  induction s with
  | nil => simp [setKV, getKV, h]
  | cons kv rest ih =>
    obtain ⟨k0, v0⟩ := kv
    by_cases h0 : k0 = k
    · subst h0
      simp [setKV, getKV, h]
    · simp [setKV, getKV, h0, ih]

theorem lookupFile_writeFileKV (files : List (List String × String))
    (p q : List String) (c : String) :
    lookupFile (writeFileKV files p c) q =
      if p = q then some c else lookupFile files q := by
  induction files with
  | nil => simp [writeFileKV, lookupFile]
  | cons e rest ih =>
    obtain ⟨p0, c0⟩ := e
    by_cases h0 : p0 = p
    · subst h0
      by_cases hq : p0 = q <;> simp [writeFileKV, lookupFile, hq]
    · by_cases hq : p0 = q
      · subst hq
        simp [writeFileKV, lookupFile, h0,
          (show p ≠ p0 from fun hh => h0 hh.symm)]
      · simp [writeFileKV, lookupFile, h0, hq, ih]

theorem lookupFile_commitWrites_ne (tws : List (List String × String)) :
    ∀ (files : List (List String × String)) (k : List String),
      (∀ e ∈ tws, e.1 ≠ k) →
      lookupFile (commitWrites files tws) k = lookupFile files k := by
  induction tws with
  | nil => intro files k _; rfl
  | cons e rest ih =>
    intro files k h
    obtain ⟨p, c⟩ := e
    rw [commitWrites, ih _ _ (fun e he => h e (List.mem_cons_of_mem _ he)),
      lookupFile_writeFileKV]
    rw [if_neg (h (p, c) (List.mem_cons_self _ _))]

theorem pathChars_foldl (l : List String) : ∀ acc : List Char,
    l.foldl (fun a s => a ++ '/' :: s.data) acc = acc ++ pathChars l := by
  induction l with
  | nil => intro acc; simp [pathChars]
  | cons x xs ih =>
    intro acc
    have hx : pathChars (x :: xs) = ('/' :: x.data) ++ pathChars xs := by
      show xs.foldl _ ([] ++ '/' :: x.data) = _
      rw [ih]
      simp
    rw [List.foldl_cons, ih, hx, List.append_assoc]

theorem pathChars_append (xs ys : List String) :
    pathChars (xs ++ ys) = pathChars xs ++ pathChars ys := by
  show (xs ++ ys).foldl _ [] = _
  rw [List.foldl_append, pathChars_foldl ys]
  rfl

/-- A write target that passed the gate's string-prefix containment test
is never the transparency artifact: the artifact's path string continues
the workspace string with `/.selfevolve/...`, which cannot extend
`/app`. -/
theorem safe_ne_artifact (ws q : List String)
    (h : startsChars (pathChars q) (pathChars (ws ++ ["app"])) = true) :
    q ≠ artifactPath ws := by
  intro heq
  subst heq
  unfold startsChars at h
  rw [artifactPath, pathChars_append, pathChars_append] at h
  have h2 := List.isPrefixOf_iff_prefix.mp h
  have h3 := (List.prefix_append_right_inj (pathChars ws)).mp h2
  revert h3
  decide

/-- Unfolding of the gate's path test: acceptance includes the
string-prefix containment of the resolved target. -/
theorem is_safe_path_starts (ws : List String) (r : String)
    (h : is_safe_path ws r = true) :
    startsChars (pathChars (resolveSegs (ws ++ (posixParse r).segs)))
      (pathChars (ws ++ ["app"])) = true := by
  unfold is_safe_path at h
  split at h
  · exact absurd h (by simp)
  · revert h
    split
    · intro h; exact absurd h (by simp)
    · intro h
      simp only [Bool.and_eq_true] at h
      exact h.2

theorem mem_foldl_addDir_of_mem (l : List (List String)) :
    ∀ (ds : List (List String)) (d : List String),
      d ∈ ds → d ∈ l.foldl addDirIfMissing ds := by
  induction l with
  | nil => intro ds d h; exact h
  | cons x xs ih =>
    intro ds d h
    rw [List.foldl_cons]
    apply ih
    unfold addDirIfMissing
    split
    · exact h
    · exact List.mem_append_left _ h

theorem mem_foldl_addDir_self (l : List (List String)) :
    ∀ (ds : List (List String)) (d : List String),
      d ∈ l → d ∈ l.foldl addDirIfMissing ds := by
  induction l with
  | nil => intro ds d h; cases h
  | cons x xs ih =>
    intro ds d h
    rw [List.foldl_cons]
    rcases List.mem_cons.mp h with rfl | h'
    · apply mem_foldl_addDir_of_mem
      unfold addDirIfMissing
      split
      · assumption
      · exact List.mem_append_right _ (List.mem_singleton_self _)
    · exact ih _ _ h'

theorem mem_mkdirParents_of_mem (fs : FS) (dir d : List String)
    (h : d ∈ fs.dirs) : d ∈ (mkdirParents fs dir).dirs :=
  mem_foldl_addDir_of_mem _ _ _ h

theorem mem_mkdirParents_mkdirSet (fs : FS) (dir d : List String)
    (h : d ∈ mkdirSet dir) : d ∈ (mkdirParents fs dir).dirs :=
  mem_foldl_addDir_self _ _ _ h

theorem prefTotal_zero (files : List (List String × String))
    (ws : List String) (ps : List V) : prefTotal files ws ps 0 = 0 := by
  simp [prefTotal]

theorem prefTotal_cons (files : List (List String × String))
    (ws : List String) (p : V) (ps : List V) (n : Nat) :
    prefTotal files ws (p :: ps) (n + 1) =
      changedOf files ws p + prefTotal files ws ps n := by
  simp [prefTotal, List.take_succ_cons]

/-- Every error path of `apply_edits` leaves the file table untouched:
the commit phase runs only after the whole batch validated. -/
theorem apply_edits_err_files (ws : List String) (fs : FS) (ps : List V)
    (mf mt : Nat) (e : String)
    (h : (apply_edits ws fs ps mf mt).1 = some e) :
    (apply_edits ws fs ps mf mt).2.files = fs.files := by
  unfold apply_edits at h ⊢
  by_cases h1 : ps.isEmpty
  · rw [if_pos h1] at h
    exact absurd h (by simp)
  · rw [if_neg h1] at h ⊢
    by_cases h2 : mf < ps.length
    · rw [if_pos h2]
    · rw [if_neg h2] at h ⊢
      rcases hval : validateGo ws fs.files mt ps 0 fs.dirs [] with ⟨err, dirs', tw⟩
      rw [hval] at h
      cases err with
      | none => exact Option.noConfusion h
      | some e' => rfl

/-- A batch containing a proposal with a bad schema or an unsafe path is
always rejected by the validation pass. -/
theorem validateGo_err_of_invalid (ws : List String)
    (files0 : List (List String × String)) (maxT : Nat) :
    ∀ (ps : List V) (total : Nat) (dirs : List (List String))
      (acc : List (List String × String)),
      (∃ p ∈ ps, invalidP ws p) →
      (validateGo ws files0 maxT ps total dirs acc).1 ≠ none := by
  intro ps
  induction ps with
  | nil =>
    intro _ _ _ h
    rcases h with ⟨p, hp, _⟩
    cases hp
  | cons p rest ih =>
    intro total dirs acc h
    rcases h with ⟨q, hq, hinv⟩
    rw [validateGo]
    rcases hv : validate_schema p with _ | msg
    · by_cases hs : is_safe_path ws (relPathOf p) = true
      · rw [if_pos hs]
        by_cases hb : maxT < total + changedOf files0 ws p
        · rw [if_pos hb]
          simp
        · rw [if_neg hb]
          apply ih
          rcases List.mem_cons.mp hq with rfl | hq'
          · exfalso
            rcases hinv with hi | hi
            · exact hi hv
            · rw [hs] at hi
              cases hi
          · exact ⟨q, hq', hinv⟩
      · rw [if_neg hs]
        simp
    · simp

/-- With every proposal schema- and path-valid and the total within budget
at entry, the validation pass succeeds exactly when every running prefix
total stays within the budget. -/
theorem validateGo_none_iff (ws : List String)
    (files0 : List (List String × String)) (maxT : Nat) :
    ∀ (ps : List V) (total : Nat) (dirs : List (List String))
      (acc : List (List String × String)),
      (∀ p ∈ ps, validate_schema p = none ∧
        is_safe_path ws (relPathOf p) = true) →
      total ≤ maxT →
      ((validateGo ws files0 maxT ps total dirs acc).1 = none ↔
        ∀ n, n ≤ ps.length → total + prefTotal files0 ws ps n ≤ maxT) := by
  intro ps
  induction ps with
  | nil =>
    intro total dirs acc _ htot
    simp only [validateGo, List.length_nil]
    constructor
    · intro _ n hn
      have : n = 0 := Nat.le_zero.mp hn
      subst this
      simpa [prefTotal_zero] using htot
    · intro _
      trivial
  | cons p rest ih =>
    intro total dirs acc hv htot
    obtain ⟨hvs, hvp⟩ := hv p (List.mem_cons_self p rest)
    rw [validateGo, hvs, if_pos hvp]
    by_cases hb : maxT < total + changedOf files0 ws p
    · rw [if_pos hb]
      constructor
      · intro h
        exact absurd h (by simp)
      · intro h
        exfalso
        have h1 := h 1 (by simp)
        rw [prefTotal_cons, prefTotal_zero] at h1
        omega
    · rw [if_neg hb]
      have hrec := ih (total + changedOf files0 ws p)
        (mkdirParents ⟨files0, dirs⟩ ((targetOf ws p).dropLast)).dirs
        (acc ++ [(targetOf ws p, normNewlines (newTextField p))])
        (fun q hq => hv q (List.mem_cons_of_mem _ hq)) (Nat.not_lt.mp hb)
      rw [hrec]
      constructor
      · intro h n hn
        cases n with
        | zero => simpa [prefTotal_zero] using htot
        | succ m =>
          rw [prefTotal_cons, ← Nat.add_assoc]
          exact h m (Nat.succ_le_succ_iff.mp (by simpa using hn))
      · intro h n hn
        have := h (n + 1) (by simpa using Nat.succ_le_succ hn)
        rw [prefTotal_cons, ← Nat.add_assoc] at this
        exact this

/-- Every pending write accumulated by the validation pass targets a path
that passed the string-prefix containment test. -/
theorem validateGo_acc_safe (ws : List String)
    (files0 : List (List String × String)) (maxT : Nat) :
    ∀ (ps : List V) (total : Nat) (dirs : List (List String))
      (acc : List (List String × String)),
      (∀ e ∈ acc,
        startsChars (pathChars e.1) (pathChars (ws ++ ["app"])) = true) →
      ∀ e ∈ (validateGo ws files0 maxT ps total dirs acc).2.2,
        startsChars (pathChars e.1) (pathChars (ws ++ ["app"])) = true := by
  intro ps
  induction ps with
  | nil =>
    intro total dirs acc hacc e he
    exact hacc e he
  | cons p rest ih =>
    intro total dirs acc hacc e he
    rw [validateGo] at he
    rcases hv : validate_schema p with _ | msg
    · rw [hv] at he
      by_cases hs : is_safe_path ws (relPathOf p) = true
      · rw [if_pos hs] at he
        by_cases hb : maxT < total + changedOf files0 ws p
        · rw [if_pos hb] at he
          exact hacc e he
        · rw [if_neg hb] at he
          refine ih _ _ _ ?_ e he
          intro e' he'
          rcases List.mem_append.mp he' with h' | h'
          · exact hacc e' h'
          · have : e' = (targetOf ws p, normNewlines (newTextField p)) := by
              simpa using h'
            subst this
            exact is_safe_path_starts ws (relPathOf p) hs
      · rw [if_neg hs] at he
        exact hacc e he
    · rw [hv] at he
      exact hacc e he

theorem runGraph_step_rc (ws : List String) (ext : Ext) (fuel : Nat)
    (s : PyState) (fs : FS) (s' : PyState) (fs' : FS)
    (h : read_context ws ext s fs = .ok (s', fs')) :
    runGraph ws ext (fuel + 1) .ReadContext s fs =
      runGraph ws ext fuel .PlanFix s' fs' := by
  show (match read_context ws ext s fs with
    | .error e => .error e
    | .ok (s1, fs1) => runGraph ws ext fuel .PlanFix s1 fs1) =
      runGraph ws ext fuel .PlanFix s' fs'
  rw [h]

theorem runGraph_step_plan (ws : List String) (ext : Ext) (fuel : Nat)
    (s : PyState) (fs : FS) (s' : PyState)
    (h : (node_plan_fix ext s fs).1 = s') :
    runGraph ws ext (fuel + 1) .PlanFix s fs =
      runGraph ws ext fuel .ApplyPatch s' fs := by
  show runGraph ws ext fuel .ApplyPatch (node_plan_fix ext s fs).1
      (node_plan_fix ext s fs).2 =
    runGraph ws ext fuel .ApplyPatch s' fs
  rw [h]
  rfl

theorem runGraph_step_apply (ws : List String) (ext : Ext) (fuel : Nat)
    (s : PyState) (fs : FS) (s' : PyState) (fs' : FS)
    (h1 : (node_apply_patch ws ext s fs).1 = s')
    (h2 : (node_apply_patch ws ext s fs).2 = fs')
    (h3 : route_after_apply s' = .tRunTests) :
    runGraph ws ext (fuel + 1) .ApplyPatch s fs =
      runGraph ws ext fuel .RunTests s' fs' := by
  show (match route_after_apply (node_apply_patch ws ext s fs).1 with
    | Target.tEnd => Except.ok ((node_apply_patch ws ext s fs).1,
        (node_apply_patch ws ext s fs).2)
    | _ => runGraph ws ext fuel .RunTests (node_apply_patch ws ext s fs).1
        (node_apply_patch ws ext s fs).2) = _
  rw [h1, h2, h3]

theorem runGraph_step_tests_reflect (ws : List String) (ext : Ext)
    (fuel : Nat) (s : PyState) (fs : FS) (s' : PyState) (fs' : FS)
    (h1 : (node_run_tests ext s fs).1 = s')
    (h2 : (node_run_tests ext s fs).2 = fs')
    (h3 : route_after_tests s' = .tReflect) :
    runGraph ws ext (fuel + 1) .RunTests s fs =
      runGraph ws ext fuel .Reflect s' fs' := by
  show (match route_after_tests (node_run_tests ext s fs).1 with
    | Target.tEnd => Except.ok ((node_run_tests ext s fs).1,
        (node_run_tests ext s fs).2)
    | _ => runGraph ws ext fuel .Reflect (node_run_tests ext s fs).1
        (node_run_tests ext s fs).2) = _
  rw [h1, h2, h3]

theorem runGraph_step_tests_end (ws : List String) (ext : Ext)
    (fuel : Nat) (s : PyState) (fs : FS) (s' : PyState) (fs' : FS)
    (h1 : (node_run_tests ext s fs).1 = s')
    (h2 : (node_run_tests ext s fs).2 = fs')
    (h3 : route_after_tests s' = .tEnd) :
    runGraph ws ext (fuel + 1) .RunTests s fs = .ok (s', fs') := by
  show (match route_after_tests (node_run_tests ext s fs).1 with
    | Target.tEnd => Except.ok ((node_run_tests ext s fs).1,
        (node_run_tests ext s fs).2)
    | _ => runGraph ws ext fuel .Reflect (node_run_tests ext s fs).1
        (node_run_tests ext s fs).2) = _
  rw [h1, h2, h3]

theorem runGraph_step_reflect (ws : List String) (ext : Ext) (fuel : Nat)
    (s : PyState) (fs : FS) (s' : PyState) (fs' : FS)
    (h1 : (node_reflect ws ext s fs).1 = s')
    (h2 : (node_reflect ws ext s fs).2 = fs') :
    runGraph ws ext (fuel + 1) .Reflect s fs =
      runGraph ws ext fuel .PlanFix s' fs' := by
  show runGraph ws ext fuel .PlanFix (node_reflect ws ext s fs).1
      (node_reflect ws ext s fs).2 = _
  rw [h1, h2]

/-- `apply_edits` never touches the transparency artifact: rejected
batches write nothing, and committed writes all live under `app`. -/
theorem apply_edits_artifact_preserved (ws : List String) (fs : FS)
    (ps : List V) (mf mt : Nat) :
    lookupFile (apply_edits ws fs ps mf mt).2.files (artifactPath ws) =
      lookupFile fs.files (artifactPath ws) := by
  unfold apply_edits
  by_cases h1 : ps.isEmpty
  · rw [if_pos h1]
  · rw [if_neg h1]
    by_cases h2 : mf < ps.length
    · rw [if_pos h2]
    · rw [if_neg h2]
      rcases hval : validateGo ws fs.files mt ps 0 fs.dirs [] with ⟨err, dirs', tw⟩
      cases err with
      | none =>
        have hsafe := validateGo_acc_safe ws fs.files mt ps 0 fs.dirs []
          (by intro e he; cases he)
        rw [hval] at hsafe
        exact lookupFile_commitWrites_ne tw fs.files (artifactPath ws)
          (fun e he => safe_ne_artifact ws e.1 (hsafe e he))
      | some e' => rfl

end SelfEvolve

namespace SelfEvolve

/-! ## Claim theorems -/

/-- C1: the claim says a `RunTests` step with `fatalError = false` and
`testsPassed = true` transitions directly to `Done` with no further
`Reflect`/`PlanFix`, halting at `attemptIndex = 0` when the first test
invocation succeeds. The code disagrees: `_route_after_tests` reads the
key `"test_passed"` while `node_run_tests` stores `"tests_passed"`, so
the router routes such a state to `Reflect`, and the run whose tests pass
from the start still performs two reflect cycles and halts with
`iter = 2`. -/
theorem C1_router_ignores_test_outcome :
    route_after_tests [("error_flag", V.vBool false),
      ("tests_passed", V.vBool true), ("iter", V.vInt 0),
      ("max_iters", V.vInt 3)] = Target.tReflect ∧
    (runGraph ws0 extPass 50 .ReadContext (initState "/ws" 3) fsE).map
        (fun r => (getKV r.1 "iter", getKV r.1 "tests_passed")) =
      .ok (some (V.vInt 2), some (V.vBool true)) := by
  exact ⟨rfl, rfl⟩

/-- C2 counterexample: with `maxAttempts = 3` and an always-failing test
runner the claim predicts 3 reflect cycles and a final `attemptIndex` of
3; the concrete run halts with `iter = 2` (the router stops as soon as
`iter + 1 ≥ max_iters`, so only 2 reflect cycles happen). -/
theorem C2_counterexample :
    (runGraph ws0 extFail 50 .ReadContext (initState "/ws" 3) fsE).map
        (fun r => (getKV r.1 "iter", getKV r.1 "tests_passed")) =
      .ok (some (V.vInt 2), some (V.vBool false)) ∧
    (2 : Int) ≠ 3 := by
  exact ⟨rfl, by decide⟩

/-- C3: the claim says `reflect` deduplicates by the exact
`(tag, pattern, advice)` triple, retaining two rules that differ in any
one component. The code's `_dedupe` key tuple is
`("tag", "regex", "advice")`, but rules store their pattern under
`"pattern"`, so the middle component always reads the default `""`:
two rules sharing tag and advice but with the distinct patterns `p1`/`p2`
collapse to the first one. -/
theorem C3_dedupe_drops_distinct_pattern :
    reflect_update (fun _ _ => false) (fun _ => none)
        (V.vDict [("heuristics", V.vList [ruleP1, ruleP2])]) "" =
      V.vDict [("heuristics", V.vList [ruleP1]),
        ("fix_snippets", V.vList [])] ∧
    pyGetKey ruleP1 "tag" = pyGetKey ruleP2 "tag" ∧
    pyGetKey ruleP1 "advice" = pyGetKey ruleP2 "advice" ∧
    pyGetKey ruleP1 "pattern" = V.vStr "p1" ∧
    pyGetKey ruleP2 "pattern" = V.vStr "p2" ∧
    ("p1" : String) ≠ "p2" := by
  exact ⟨rfl, rfl, rfl, rfl, rfl, by decide⟩

/-- C4 counterexample: the claim says the transparency artifact is
overwritten on *every* `ApplyPatch` step, including an empty proposal
batch. In `node_apply_patch` both `write_edits_json` and `apply_edits`
sit under `if patches:`, so an empty batch leaves a pre-existing artifact
untouched (it would have become the serialized empty batch, here `"M"`). -/
theorem C4_counterexample :
    (node_apply_patch ws0 extPass [("patches", V.vList [])]
        ⟨[(artifactPath ws0, "old")], [["ws"]]⟩).2 =
      ⟨[(artifactPath ws0, "old")], [["ws"]]⟩ ∧
    lookupFile (node_apply_patch ws0 extPass [("patches", V.vList [])]
        ⟨[(artifactPath ws0, "old")], [["ws"]]⟩).2.files (artifactPath ws0) =
      some "old" ∧
    extPass.dumps (editsPayload []) = "M" ∧
    ("old" : String) ≠ "M" := by
  exact ⟨rfl, by decide, rfl, by decide⟩

set_option maxRecDepth 20000 in
set_option maxHeartbeats 2000000 in
/-- C6 counterexample: the claim says the changed-line count is the number
of added plus removed lines of the unified diff and the budget error fires
exactly when the running total passes `maxTotalChangedLines`. The counter
in `_count_changed_lines` skips any diff line starting with `+++`/`---`,
which also skips added content lines that themselves begin with `++`: a
new 301-line file whose every line starts with `++` counts as 0 changed
lines and is applied, although its diff has 301 added lines — over the
300 budget. -/
theorem C6_counterexample :
    (apply_edits ws0 fs0 [mkP "app/p.py" LPP301] 3 300).1 = none ∧
    lookupFile (apply_edits ws0 fs0 [mkP "app/p.py" LPP301] 3 300).2.files
      ["ws", "app", "p.py"] = some (normNewlines LPP301) ∧
    count_changed_lines "" (normNewlines LPP301) = 0 ∧
    spec_changed_lines "" (normNewlines LPP301) = 301 ∧
    300 < 301 := by
  refine ⟨by decide, by rfl, by decide, by decide, by decide⟩

/-- C7: the claim says the gate rejects exactly the paths that are not
`app`-rooted relative paths resolving inside the workspace's `app`
subdirectory. The code's containment test compares path *strings*
(`str(abs_path).startswith(str(workspace / "app"))`), so
`app/../appx/f` — which resolves to the sibling directory `appx`,
outside `app` — passes the check and its write lands outside `app`. -/
theorem C7_prefix_check_escape :
    is_safe_path ws0 "app/../appx/f" = true ∧
    spec_resolves_inside_app ws0 "app/../appx/f" = false ∧
    (apply_edits ws0 fs0 [mkP "app/../appx/f" "hi"] 3 300).1 = none ∧
    lookupFile (apply_edits ws0 fs0 [mkP "app/../appx/f" "hi"] 3 300).2.files
      ["ws", "appx", "f"] = some "hi" := by
  refine ⟨by decide, by decide, by decide, by decide⟩

/-- C8: the claim says `load` never raises. The missing-file, empty-file
and unparsable-content cases do return the fresh empty record, and a
parsed dict gets both collection fields defaulted — but a file whose
content parses to a non-dict (here the valid JSON `[]`) raises
`AttributeError`, because the `setdefault` calls sit outside the `try`. -/
theorem C8_load_memory_cases :
    load_memory cLoads none =
      .ok (V.vDict [("heuristics", V.vList []), ("fix_snippets", V.vList [])]) ∧
    load_memory cLoads (some "") =
      .ok (V.vDict [("heuristics", V.vList []), ("fix_snippets", V.vList [])]) ∧
    load_memory cLoads (some "not json") =
      .ok (V.vDict [("heuristics", V.vList []), ("fix_snippets", V.vList [])]) ∧
    load_memory cLoads (some "\x7b\"heuristics\": [1]\x7d") =
      .ok (V.vDict [("heuristics", V.vList [V.vInt 1]),
        ("fix_snippets", V.vList [])]) ∧
    load_memory cLoads (some "[]") = .error "AttributeError: setdefault" := by
  exact ⟨rfl, rfl, rfl, rfl, rfl⟩

end SelfEvolve

namespace SelfEvolve

/-- C4 amended: on every `ApplyPatch` step whose batch is a non-empty list
of dict proposals, the transparency artifact holds the serialized batch
afterwards, whether `apply_edits` succeeded or rejected the batch — the
artifact is written first and the gate never writes to it (rejected
batches write nothing; committed writes stay under `app`). -/
theorem C4_artifact_overwritten_nonempty (ws : List String) (ext : Ext)
    (s : PyState) (fs : FS) (ps : List V)
    (hp : getKV s "patches" = some (V.vList ps)) (hne : ps ≠ [])
    (hd : ∀ p ∈ ps, ∃ d, p = V.vDict d) :
    lookupFile (node_apply_patch ws ext s fs).2.files (artifactPath ws) =
      some (ext.dumps (editsPayload ps)) := by
  unfold node_apply_patch
  rw [hp]
  rw [if_neg (by simpa [List.isEmpty_iff] using hne)]
  have hany : (ps.any fun p =>
      match p with | V.vDict _ => false | _ => true) = false := by
    rw [List.any_eq_false]
    intro p hpm
    rcases hd p hpm with ⟨d, rfl⟩
    simp
  unfold write_edits_json
  rw [hany]
  simp only [Bool.false_eq_true, if_false]
  have hart : lookupFile
      ((mkdirParents fs (ws ++ [".selfevolve"])).writeFile (artifactPath ws)
        (ext.dumps (editsPayload ps))).files (artifactPath ws) =
      some (ext.dumps (editsPayload ps)) := by
    rw [FS.writeFile]
    show lookupFile (writeFileKV _ _ _) _ = _
    rw [lookupFile_writeFileKV, if_pos rfl]
  rcases happ : apply_edits ws
      ((mkdirParents fs (ws ++ [".selfevolve"])).writeFile (artifactPath ws)
        (ext.dumps (editsPayload ps))) ps 3 300 with ⟨err, fs2⟩
  have hpres := apply_edits_artifact_preserved ws
    ((mkdirParents fs (ws ++ [".selfevolve"])).writeFile (artifactPath ws)
      (ext.dumps (editsPayload ps))) ps 3 300
  rw [happ] at hpres
  cases err with
  | none =>
    simpa [hart] using hpres
  | some e =>
    simpa [hart] using hpres

/-- C4 amended, witness: a one-proposal batch on a bare workspace leaves
the serialized batch in the artifact. -/
theorem C4_artifact_overwritten_nonempty_witness :
    lookupFile (node_apply_patch ws0 extFail
        [("patches", V.vList [mkP "app/x.py" "T"])] fsE).2.files
      (artifactPath ws0) =
      some (extFail.dumps (editsPayload [mkP "app/x.py" "T"])) := by
  refine C4_artifact_overwritten_nonempty ws0 extFail _ fsE
    [mkP "app/x.py" "T"] rfl (by simp) ?_
  intro p hp
  rcases List.mem_singleton.mp hp with rfl
  exact ⟨_, rfl⟩

/-- C5: a rejected batch is never partially applied. Whenever
`apply_edits` raises — bad schema, unsafe path, size or budget limits —
the file table is exactly what it was, so no earlier valid proposal of
the batch got written; and any batch containing a schema- or path-invalid
proposal does raise. -/
theorem C5_rejected_batch_writes_nothing :
    (∀ (ws : List String) (fs : FS) (ps : List V) (mf mt : Nat) (e : String),
      (apply_edits ws fs ps mf mt).1 = some e →
      (apply_edits ws fs ps mf mt).2.files = fs.files) ∧
    (∀ (ws : List String) (fs : FS) (ps : List V) (mf mt : Nat),
      (∃ p ∈ ps, invalidP ws p) →
      (apply_edits ws fs ps mf mt).1 ≠ none) := by
  constructor
  · exact apply_edits_err_files
  · intro ws fs ps mf mt hex
    have hne : ps ≠ [] := by
      rcases hex with ⟨p, hp, _⟩
      intro h
      subst h
      cases hp
    unfold apply_edits
    rw [if_neg (by simpa [List.isEmpty_iff] using hne)]
    by_cases h2 : mf < ps.length
    · rw [if_pos h2]
      simp
    · rw [if_neg h2]
      rcases hval : validateGo ws fs.files mt ps 0 fs.dirs [] with ⟨err, dirs', tw⟩
      have herr := validateGo_err_of_invalid ws fs.files mt ps 0 fs.dirs [] hex
      rw [hval] at herr
      cases err with
      | none => exact absurd rfl herr
      | some e' => simp

/-- C5 witness: a batch whose second proposal has an unsafe path is
rejected and the first, valid proposal is not written. -/
theorem C5_rejected_batch_writes_nothing_witness :
    (apply_edits ws0 fs0 [mkP "app/ok.py" "fine\n", mkP "etc/bad" "x"]
        3 300).1 ≠ none ∧
    (apply_edits ws0 fs0 [mkP "app/ok.py" "fine\n", mkP "etc/bad" "x"]
        3 300).2.files = fs0.files := by
  constructor
  · exact C5_rejected_batch_writes_nothing.2 ws0 fs0 _ 3 300
      ⟨mkP "etc/bad" "x",
        List.mem_cons_of_mem _ (List.mem_singleton_self _),
        Or.inr (by decide)⟩
  · exact C5_rejected_batch_writes_nothing.1 ws0 fs0 _ 3 300
      "Unsafe path (allowed only under 'app/'): etc/bad" (by decide)

end SelfEvolve

namespace SelfEvolve

set_option maxRecDepth 20000 in
/-- C6 amended: with every proposal schema- and path-valid and at most
`maxFiles` of them, `apply_edits` succeeds exactly when every running
prefix of the per-proposal changed-line counts (each proposal diffed
against the pre-batch content, added plus removed lines except those
whose own text begins `++`/`--`) stays within the budget; the two
200-line files against limit 300 are rejected whole with nothing
written, while the single 200-line file is applied. -/
theorem C6_budget_accounting :
    (∀ (ws : List String) (fs : FS) (ps : List V) (mt : Nat),
      ps ≠ [] → ps.length ≤ 3 →
      (∀ p ∈ ps, validate_schema p = none ∧
        is_safe_path ws (relPathOf p) = true) →
      ((apply_edits ws fs ps 3 mt).1 = none ↔
        ∀ n, n ≤ ps.length → prefTotal fs.files ws ps n ≤ mt)) ∧
    changedOf fs0.files ws0 (mkP "app/a.py" L200) = 200 ∧
    changedOf fs0.files ws0 (mkP "app/sub/b.py" L200) = 200 ∧
    (apply_edits ws0 fs0 [mkP "app/a.py" L200, mkP "app/sub/b.py" L200]
        3 300).1 = some (budgetMsg 400 300) ∧
    (apply_edits ws0 fs0 [mkP "app/a.py" L200, mkP "app/sub/b.py" L200]
        3 300).2.files = fs0.files ∧
    (apply_edits ws0 fs0 [mkP "app/a.py" L200] 3 300).1 = none ∧
    lookupFile (apply_edits ws0 fs0 [mkP "app/a.py" L200] 3 300).2.files
      ["ws", "app", "a.py"] = some L200 := by
  refine ⟨?_, by decide, by decide, by decide, by decide, by decide, by rfl⟩
  intro ws fs ps mt hne hlen hv
  unfold apply_edits
  rw [if_neg (by simpa [List.isEmpty_iff] using hne)]
  rw [if_neg (Nat.not_lt.mpr hlen)]
  have hiff := validateGo_none_iff ws fs.files mt ps 0 fs.dirs [] hv
    (Nat.zero_le _)
  rcases hval : validateGo ws fs.files mt ps 0 fs.dirs [] with ⟨err, dirs', tw⟩
  rw [hval] at hiff
  cases err with
  | none => simpa using hiff
  | some e' => simpa using hiff

set_option maxRecDepth 20000 in
/-- C6 amended, witness: the accounting equivalence applied to the
two-200-line-file batch against limit 300. -/
theorem C6_budget_accounting_witness :
    (apply_edits ws0 fs0 [mkP "app/a.py" L200, mkP "app/sub/b.py" L200]
        3 300).1 = none ↔
      ∀ n, n ≤ 2 →
        prefTotal fs0.files ws0
          [mkP "app/a.py" L200, mkP "app/sub/b.py" L200] n ≤ 300 := by
  have h := C6_budget_accounting.1 ws0 fs0
    [mkP "app/a.py" L200, mkP "app/sub/b.py" L200] 300
    (by simp) (by simp) ?_
  · simpa using h
  · intro p hp
    rcases List.mem_cons.mp hp with rfl | hp'
    · exact ⟨by decide, by decide⟩
    · rcases List.mem_singleton.mp hp' with rfl
      exact ⟨by decide, by decide⟩

/-- C9: the parent directories of each proposal are created during the
validation pass, before the batch is accepted: a two-proposal batch whose
second proposal pushes the running total over budget is rejected with no
file written, yet the directory chains of both targets exist afterwards. -/
theorem C9_dirs_created_before_commit (ws : List String) (fs : FS)
    (p q : V) (mt : Nat)
    (hps : validate_schema p = none)
    (hss : is_safe_path ws (relPathOf p) = true)
    (hqs : validate_schema q = none)
    (hqq : is_safe_path ws (relPathOf q) = true)
    (h1 : changedOf fs.files ws p ≤ mt)
    (h2 : mt < changedOf fs.files ws p + changedOf fs.files ws q) :
    (apply_edits ws fs [p, q] 3 mt).1 =
      some (budgetMsg (changedOf fs.files ws p + changedOf fs.files ws q)
        mt) ∧
    (apply_edits ws fs [p, q] 3 mt).2.files = fs.files ∧
    (∀ d ∈ mkdirSet ((targetOf ws p).dropLast),
      d ∈ (apply_edits ws fs [p, q] 3 mt).2.dirs) ∧
    (∀ d ∈ mkdirSet ((targetOf ws q).dropLast),
      d ∈ (apply_edits ws fs [p, q] 3 mt).2.dirs) := by
  have hcomp : apply_edits ws fs [p, q] 3 mt =
      (some (budgetMsg
          (changedOf fs.files ws p + changedOf fs.files ws q) mt),
        ⟨fs.files,
          (mkdirParents
            ⟨fs.files,
              (mkdirParents ⟨fs.files, fs.dirs⟩
                ((targetOf ws p).dropLast)).dirs⟩
            ((targetOf ws q).dropLast)).dirs⟩) := by
    unfold apply_edits
    rw [if_neg (by simp), if_neg (by simp)]
    rw [validateGo, hps, if_pos hss, if_neg (by omega)]
    rw [validateGo, hqs, if_pos hqq, if_pos (by omega)]
    simp
  rw [hcomp]
  refine ⟨rfl, rfl, ?_, ?_⟩
  · intro d hd
    exact mem_mkdirParents_of_mem _ _ _ (mem_mkdirParents_mkdirSet _ _ _ hd)
  · intro d hd
    exact mem_mkdirParents_mkdirSet _ _ _ hd

set_option maxRecDepth 20000 in
/-- C9 witness: the over-budget two-file batch leaves both `app`-side
directory chains created although it is rejected. -/
theorem C9_dirs_created_before_commit_witness :
    (apply_edits ws0 fs0 [mkP "app/a.py" L200, mkP "app/sub/b.py" L200]
        3 300).1 =
      some (budgetMsg
        (changedOf fs0.files ws0 (mkP "app/a.py" L200) +
          changedOf fs0.files ws0 (mkP "app/sub/b.py" L200)) 300) ∧
    (apply_edits ws0 fs0 [mkP "app/a.py" L200, mkP "app/sub/b.py" L200]
        3 300).2.files = fs0.files ∧
    (∀ d ∈ mkdirSet ((targetOf ws0 (mkP "app/a.py" L200)).dropLast),
      d ∈ (apply_edits ws0 fs0
        [mkP "app/a.py" L200, mkP "app/sub/b.py" L200] 3 300).2.dirs) ∧
    (∀ d ∈ mkdirSet ((targetOf ws0 (mkP "app/sub/b.py" L200)).dropLast),
      d ∈ (apply_edits ws0 fs0
        [mkP "app/a.py" L200, mkP "app/sub/b.py" L200] 3 300).2.dirs) :=
  C9_dirs_created_before_commit ws0 fs0 (mkP "app/a.py" L200)
    (mkP "app/sub/b.py" L200) 300 (by decide) (by decide) (by decide)
    (by decide) (by decide) (by decide)

/-- C10: no uniqueness constraint on paths in one batch: two proposals
for the same path are each diffed against the current on-disk content for
budget accounting, both pass, and the file ends up with the second
proposal's (normalized) text. -/
theorem C10_duplicate_paths_last_write_wins (ws : List String) (fs : FS)
    (p1 p2 : V) (mt : Nat)
    (h1s : validate_schema p1 = none) (h2s : validate_schema p2 = none)
    (hpath : pathField p1 = pathField p2)
    (hsafe : is_safe_path ws (relPathOf p1) = true)
    (hb : changedOf fs.files ws p1 + changedOf fs.files ws p2 ≤ mt) :
    (apply_edits ws fs [p1, p2] 3 mt).1 = none ∧
    lookupFile (apply_edits ws fs [p1, p2] 3 mt).2.files (targetOf ws p1) =
      some (normNewlines (newTextField p2)) := by
  have hsafe2 : is_safe_path ws (relPathOf p2) = true := by
    unfold relPathOf
    rw [← hpath]
    exact hsafe
  have htarg : targetOf ws p2 = targetOf ws p1 := by
    unfold targetOf relPathOf
    rw [hpath]
  have hcomp : apply_edits ws fs [p1, p2] 3 mt =
      (none,
        ⟨commitWrites fs.files
          ([] ++ [(targetOf ws p1, normNewlines (newTextField p1))] ++
            [(targetOf ws p2, normNewlines (newTextField p2))]),
          (mkdirParents
            ⟨fs.files,
              (mkdirParents ⟨fs.files, fs.dirs⟩
                ((targetOf ws p1).dropLast)).dirs⟩
            ((targetOf ws p2).dropLast)).dirs⟩) := by
    unfold apply_edits
    rw [if_neg (by simp), if_neg (by simp)]
    rw [validateGo, h1s, if_pos hsafe, if_neg (by omega)]
    rw [validateGo, h2s, if_pos hsafe2, if_neg (by omega)]
    rw [validateGo]
  rw [hcomp]
  refine ⟨rfl, ?_⟩
  simp only [List.nil_append]
  show lookupFile (commitWrites fs.files _) _ = _
  simp only [commitWrites]
  rw [lookupFile_writeFileKV, if_pos htarg]

/-- C10 witness: two proposals for `app/d.py` in one batch; the file holds
the second proposal's text afterwards. -/
theorem C10_duplicate_paths_last_write_wins_witness :
    (apply_edits ws0 ⟨[(["ws", "app", "d.py"], "orig\n")], [["ws"]]⟩
        [mkP "app/d.py" "v1\n", mkP "app/d.py" "v2\n"] 3 300).1 = none ∧
    lookupFile (apply_edits ws0
        ⟨[(["ws", "app", "d.py"], "orig\n")], [["ws"]]⟩
        [mkP "app/d.py" "v1\n", mkP "app/d.py" "v2\n"] 3 300).2.files
      (targetOf ws0 (mkP "app/d.py" "v1\n")) =
      some (normNewlines (newTextField (mkP "app/d.py" "v2\n"))) :=
  C10_duplicate_paths_last_write_wins ws0
    ⟨[(["ws", "app", "d.py"], "orig\n")], [["ws"]]⟩
    (mkP "app/d.py" "v1\n") (mkP "app/d.py" "v2\n") 300
    (by decide) (by decide) (by decide) (by decide) (by decide)

end SelfEvolve

namespace SelfEvolve

/-- Every exit of `node_apply_patch` sets `error_flag` (and on failure
`message`) on top of the incoming state. -/
theorem node_apply_patch_shape (ws : List String) (ext : Ext)
    (s : PyState) (fs : FS) :
    (node_apply_patch ws ext s fs).1 = setKV s "error_flag" (V.vBool false) ∨
    ∃ m, (node_apply_patch ws ext s fs).1 =
      setKV (setKV s "error_flag" (V.vBool true)) "message" (V.vStr m) := by
  unfold node_apply_patch
  rcases hg : getKV s "patches" with _ | v
  · exact Or.inl rfl
  · cases v with
    | vList l =>
      cases l with
      | nil => exact Or.inl rfl
      | cons x xs =>
        simp only [List.isEmpty_cons, Bool.false_eq_true, if_false]
        rcases hw : write_edits_json ws fs ext.dumps (x :: xs) with e | fs1
        · exact Or.inr ⟨"apply_patch error: " ++ e, rfl⟩
        · dsimp only
          rcases ha : apply_edits ws fs1 (x :: xs) 3 300 with ⟨err, fs2⟩
          cases err with
          | none => exact Or.inl rfl
          | some e => exact Or.inr ⟨"apply_patch error: " ++ e, rfl⟩
    | vNone => exact Or.inl rfl
    | vBool b => exact Or.inl rfl
    | vInt n => exact Or.inl rfl
    | vStr t => exact Or.inl rfl
    | vDict d => exact Or.inl rfl

/-- C2 amended: with `maxAttempts = 3`, a test runner that always fails
and apply steps that never raise (the planner proposes nothing), the run
halts with `iter = 2` and `tests_passed = false` — exactly two
reflect-and-retry cycles, the router ending the loop as soon as
`iter + 1 ≥ max_iters`. Moreover `iter` is incremented by exactly one on
each Reflect and is untouched by every other node. -/
theorem C2_two_reflect_cycles (ws : List String) (ext : Ext) (r : String)
    (m0 : V) (fs1 : FS)
    (hplan : ∀ m t c, ext.planner m t c = [])
    (hrun : ∀ fs, (ext.runner fs).1 = false)
    (hload : load_memory ext.loads
      (lookupFile fs1.files (memory_path ws)) = .ok m0) :
    ((runGraph ws ext 50 .ReadContext (initState r 3) fs1).map
        (fun x => (getKV x.1 "iter", getKV x.1 "tests_passed")) =
      .ok (some (V.vInt 2), some (V.vBool false))) ∧
    (∀ (s : PyState) (fs : FS),
      getKV (node_reflect ws ext s fs).1 "iter" =
        some (V.vInt (getIntKV s "iter" 0 + 1))) ∧
    (∀ (s : PyState) (fs : FS),
      getKV (node_run_tests ext s fs).1 "iter" = getKV s "iter") ∧
    (∀ (s : PyState) (fs : FS),
      getKV (node_plan_fix ext s fs).1 "iter" = getKV s "iter") ∧
    (∀ (s : PyState) (fs : FS),
      getKV (node_apply_patch ws ext s fs).1 "iter" = getKV s "iter") ∧
    (∀ (s : PyState) (fs : FS) (x : PyState × FS),
      read_context ws ext s fs = .ok x →
      getKV x.1 "iter" = getKV s "iter") := by
  refine ⟨?_, ?_, ?_, ?_, ?_, ?_⟩
  · have hrc : read_context ws ext (initState r 3) fs1 =
        .ok ([("repo", V.vStr r), ("iter", V.vInt 0),
          ("max_iters", V.vInt 3), ("memory", m0),
          ("file_summaries", ext.summarize fs1)], fs1) := by
      unfold read_context
      rw [hload]
      rfl
    rw [runGraph_step_rc ws ext 49 _ _ _ _ hrc]
    rw [runGraph_step_plan ws ext 48 _ _
      [("repo", V.vStr r), ("iter", V.vInt 0), ("max_iters", V.vInt 3),
       ("memory", m0), ("file_summaries", ext.summarize fs1),
       ("patches", V.vList [])]
      (by unfold node_plan_fix; rw [hplan]; rfl)]
    rw [runGraph_step_apply ws ext 47 _ _
      [("repo", V.vStr r), ("iter", V.vInt 0), ("max_iters", V.vInt 3),
       ("memory", m0), ("file_summaries", ext.summarize fs1),
       ("patches", V.vList []), ("error_flag", V.vBool false)]
      fs1 (by rfl) (by rfl) (by rfl)]
    rw [runGraph_step_tests_reflect ws ext 46 _ _
      (loopSt (V.vStr r) (V.vInt 0) m0 (ext.summarize fs1) (V.vList [])
        (V.vBool false) (V.vBool (ext.runner fs1).1)
        (V.vStr (ext.runner fs1).2))
      fs1 (by rfl) (by rfl) (by rfl)]
    rw [runGraph_step_reflect ws ext 45 _ _
      (loopSt (V.vStr r) (V.vInt 1)
        (memAfter ws ext fs1 m0 (ext.runner fs1).2) (ext.summarize fs1)
        (V.vList []) (V.vBool false) (V.vBool (ext.runner fs1).1)
        (V.vStr (ext.runner fs1).2))
      (fsAfter ws ext fs1 m0 (ext.runner fs1).2) (by rfl) (by rfl)]
    rw [runGraph_step_plan ws ext 44 _ _
      (loopSt (V.vStr r) (V.vInt 1)
        (memAfter ws ext fs1 m0 (ext.runner fs1).2) (ext.summarize fs1)
        (V.vList []) (V.vBool false) (V.vBool (ext.runner fs1).1)
        (V.vStr (ext.runner fs1).2))
      (by unfold node_plan_fix; rw [hplan]; rfl)]
    rw [runGraph_step_apply ws ext 43 _ _
      (loopSt (V.vStr r) (V.vInt 1)
        (memAfter ws ext fs1 m0 (ext.runner fs1).2) (ext.summarize fs1)
        (V.vList []) (V.vBool false) (V.vBool (ext.runner fs1).1)
        (V.vStr (ext.runner fs1).2))
      (fsAfter ws ext fs1 m0 (ext.runner fs1).2) (by rfl) (by rfl) (by rfl)]
    rw [runGraph_step_tests_reflect ws ext 42 _ _
      (loopSt (V.vStr r) (V.vInt 1)
        (memAfter ws ext fs1 m0 (ext.runner fs1).2) (ext.summarize fs1)
        (V.vList []) (V.vBool false)
        (V.vBool (ext.runner (fsAfter ws ext fs1 m0 (ext.runner fs1).2)).1)
        (V.vStr (ext.runner (fsAfter ws ext fs1 m0 (ext.runner fs1).2)).2))
      (fsAfter ws ext fs1 m0 (ext.runner fs1).2) (by rfl) (by rfl) (by rfl)]
    rw [runGraph_step_reflect ws ext 41 _ _
      (loopSt (V.vStr r) (V.vInt 2)
        (memAfter ws ext (fsAfter ws ext fs1 m0 (ext.runner fs1).2)
          (memAfter ws ext fs1 m0 (ext.runner fs1).2)
          (ext.runner (fsAfter ws ext fs1 m0 (ext.runner fs1).2)).2)
        (ext.summarize fs1) (V.vList []) (V.vBool false)
        (V.vBool (ext.runner (fsAfter ws ext fs1 m0 (ext.runner fs1).2)).1)
        (V.vStr (ext.runner (fsAfter ws ext fs1 m0 (ext.runner fs1).2)).2))
      (fsAfter ws ext (fsAfter ws ext fs1 m0 (ext.runner fs1).2)
        (memAfter ws ext fs1 m0 (ext.runner fs1).2)
        (ext.runner (fsAfter ws ext fs1 m0 (ext.runner fs1).2)).2) (by rfl) (by rfl)]
    rw [runGraph_step_plan ws ext 40 _ _
      (loopSt (V.vStr r) (V.vInt 2)
        (memAfter ws ext (fsAfter ws ext fs1 m0 (ext.runner fs1).2)
          (memAfter ws ext fs1 m0 (ext.runner fs1).2)
          (ext.runner (fsAfter ws ext fs1 m0 (ext.runner fs1).2)).2)
        (ext.summarize fs1) (V.vList []) (V.vBool false)
        (V.vBool (ext.runner (fsAfter ws ext fs1 m0 (ext.runner fs1).2)).1)
        (V.vStr (ext.runner (fsAfter ws ext fs1 m0 (ext.runner fs1).2)).2))
      (by unfold node_plan_fix; rw [hplan]; rfl)]
    rw [runGraph_step_apply ws ext 39 _ _
      (loopSt (V.vStr r) (V.vInt 2)
        (memAfter ws ext (fsAfter ws ext fs1 m0 (ext.runner fs1).2)
          (memAfter ws ext fs1 m0 (ext.runner fs1).2)
          (ext.runner (fsAfter ws ext fs1 m0 (ext.runner fs1).2)).2)
        (ext.summarize fs1) (V.vList []) (V.vBool false)
        (V.vBool (ext.runner (fsAfter ws ext fs1 m0 (ext.runner fs1).2)).1)
        (V.vStr (ext.runner (fsAfter ws ext fs1 m0 (ext.runner fs1).2)).2))
      (fsAfter ws ext (fsAfter ws ext fs1 m0 (ext.runner fs1).2)
        (memAfter ws ext fs1 m0 (ext.runner fs1).2)
        (ext.runner (fsAfter ws ext fs1 m0 (ext.runner fs1).2)).2) (by rfl) (by rfl) (by rfl)]
    rw [runGraph_step_tests_end ws ext 38 _ _
      (loopSt (V.vStr r) (V.vInt 2)
        (memAfter ws ext (fsAfter ws ext fs1 m0 (ext.runner fs1).2)
          (memAfter ws ext fs1 m0 (ext.runner fs1).2)
          (ext.runner (fsAfter ws ext fs1 m0 (ext.runner fs1).2)).2)
        (ext.summarize fs1) (V.vList []) (V.vBool false)
        (V.vBool (ext.runner (fsAfter ws ext
          (fsAfter ws ext fs1 m0 (ext.runner fs1).2)
          (memAfter ws ext fs1 m0 (ext.runner fs1).2)
          (ext.runner (fsAfter ws ext fs1 m0 (ext.runner fs1).2)).2)).1)
        (V.vStr (ext.runner (fsAfter ws ext
          (fsAfter ws ext fs1 m0 (ext.runner fs1).2)
          (memAfter ws ext fs1 m0 (ext.runner fs1).2)
          (ext.runner (fsAfter ws ext fs1 m0 (ext.runner fs1).2)).2)).2))
      (fsAfter ws ext (fsAfter ws ext fs1 m0 (ext.runner fs1).2)
        (memAfter ws ext fs1 m0 (ext.runner fs1).2)
        (ext.runner (fsAfter ws ext fs1 m0 (ext.runner fs1).2)).2) (by rfl) (by rfl) (by rfl)]
    rw [hrun]
    rfl
  · intro s fs
    exact getKV_setKV_self _ _ _
  · intro s fs
    show getKV (setKV (setKV s "tests_passed" _) "test_log" _) "iter" =
      getKV s "iter"
    rw [getKV_setKV_ne _ _ _ _ (by decide),
      getKV_setKV_ne _ _ _ _ (by decide)]
  · intro s fs
    show getKV (setKV s "patches" _) "iter" = getKV s "iter"
    rw [getKV_setKV_ne _ _ _ _ (by decide)]
  · intro s fs
    rcases node_apply_patch_shape ws ext s fs with h | ⟨m, h⟩
    · rw [h, getKV_setKV_ne _ _ _ _ (by decide)]
    · rw [h, getKV_setKV_ne _ _ _ _ (by decide),
        getKV_setKV_ne _ _ _ _ (by decide)]
  · intro s fs x hx
    unfold read_context at hx
    rcases hl : load_memory ext.loads (lookupFile fs.files (memory_path ws))
      with e | mem
    · rw [hl] at hx
      exact Except.noConfusion hx
    · rw [hl] at hx
      injection hx with hx1
      rw [← hx1]
      show getKV (setKV (setKV s "memory" _) "file_summaries" _) "iter" =
        getKV s "iter"
      rw [getKV_setKV_ne _ _ _ _ (by decide),
        getKV_setKV_ne _ _ _ _ (by decide)]

/-- C2 amended, witness: the concrete always-failing run on a bare
workspace halts with `iter = 2` and `tests_passed = false`. -/
theorem C2_two_reflect_cycles_witness :
    (runGraph ws0 extFail 50 .ReadContext (initState "/ws" 3) fsE).map
        (fun x => (getKV x.1 "iter", getKV x.1 "tests_passed")) =
      .ok (some (V.vInt 2), some (V.vBool false)) :=
  (C2_two_reflect_cycles ws0 extFail "/ws"
    (V.vDict [("heuristics", V.vList []), ("fix_snippets", V.vList [])])
    fsE (fun _ _ _ => rfl) (fun _ => rfl) rfl).1

end SelfEvolve
